import Mathlib

/- Verification of the Stash-Downloader backend script
   (plugins/stash-downloader/scripts/download.py) against its specification.

   The Python code is shallowly embedded: pure string manipulation is
   translated to functions on `String` / `List Char`, JSON documents become an
   inductive `Json` type, the result store becomes an explicit association
   list from file path to stored document, Python floats are modelled as exact
   rationals, and the two downloader loops are modelled as functions that
   produce the list of observable events (HTTP GET, subprocess spawn, result
   store writes, chunk writes) of one invocation, parameterised by the
   external inputs (response data, subprocess output lines, wall-clock
   readings). -/

namespace StashDownloader

/-- Python int() applied to an exact rational: truncation toward zero. -/
def pyInt (q : ℚ) : ℤ := if 0 ≤ q then ⌊q⌋ else ⌈q⌉

/-- Characters kept by re.sub(r"[^a-zA-Z0-9_-]", "", result_id) in
get_result_path: ASCII letters, digits, underscore and hyphen. -/
def isSafeIdChar (c : Char) : Bool :=
  decide (('a' ≤ c ∧ c ≤ 'z') ∨ ('A' ≤ c ∧ c ≤ 'Z') ∨ ('0' ≤ c ∧ c ≤ '9') ∨
    c = '_' ∨ c = '-')

/-- The id sanitiser in get_result_path: drop every character outside
[A-Za-z0-9_-]. -/
def sanitizeId (s : String) : String := String.mk (s.data.filter isSafeIdChar)

/-- First character of a string is a slash (os.path.join absolute-component
test, for POSIX paths). -/
def firstCharIsSlash (s : String) : Bool := s.data.head? == some '/'

/-- Last character of a string is a slash (os.path.join separator test). -/
def lastCharIsSlash (s : String) : Bool := s.data.getLast? == some '/'

/-- os.path.join with a single extra component, POSIX semantics. -/
def posixJoin (a b : String) : String :=
  if firstCharIsSlash b then b
  else if a = "" then a ++ b
  else if lastCharIsSlash a then a ++ b
  else a ++ "/" ++ b

/-- get_result_path, with the results root directory (the RESULT_DIR global,
computed from the plugin directory at startup) passed explicitly. -/
def get_result_path (root result_id : String) : String :=
  posixJoin root (sanitizeId result_id ++ ".json")

/-- JSON documents, as stored in and returned from the result store. -/
inductive Json where
  | null
  | bool (b : Bool)
  | num (q : ℚ)
  | str (s : String)
  | arr (elems : List Json)
  | obj (fields : List (String × Json))

/-- Lookup in a Python dict modelled as an association list. -/
def dget : List (String × Json) → String → Option Json
  | [], _ => none
  | (k, v) :: rest, key => if k = key then some v else dget rest key

/-- Python `key in dict`. -/
def dcontains (l : List (String × Json)) (key : String) : Bool :=
  (dget l key).isSome

/-- Python `dict.pop(key)` / `del dict[key]`: remove the key. -/
def derase (l : List (String × Json)) (key : String) : List (String × Json) :=
  l.filter (fun p => p.1 != key)

/-- Python `dict[key] = v`: replace the value if the key is present
(keeping its position), otherwise append the binding. -/
def dinsert : List (String × Json) → String → Json → List (String × Json)
  | [], k, v => [(k, v)]
  | (k1, v1) :: rest, k, v =>
    if k1 = k then (k, v) :: rest else (k1, v1) :: dinsert rest k v

/-- Python truthiness of a JSON value. -/
def pyTruthy : Json → Bool
  | .null => false
  | .bool b => b
  | .num q => q != 0
  | .str s => s != ""
  | .arr xs => !xs.isEmpty
  | .obj fs => !fs.isEmpty

/-- The result store backing directory: a map from file path to the stored
JSON document. -/
abbrev Store := List (String × Json)

/-- save_result: sanitise the id, overwrite the id's file with the record;
returns the new store and the success flag (filesystem failures, which make
the Python function return False, are outside the embedding). -/
def save_result (root : String) (st : Store) (result_id : String)
    (data : Json) : Store × Bool :=
  (dinsert st (get_result_path root result_id) data, true)

/-- load_result: return the stored record, or none when the file does not
exist. -/
def load_result (root : String) (st : Store) (result_id : String) :
    Option Json :=
  dget st (get_result_path root result_id)

/-- delete_result: remove the file if present; returns True either way. -/
def delete_result (root : String) (st : Store) (result_id : String) :
    Store × Bool :=
  (derase st (get_result_path root result_id), true)

/- The URL classifier is_direct_file_url, together with the pieces of
urllib.parse it uses. -/

/-- Does the first list start with the second (str.startswith, on char
lists)? -/
def startsWithL : List Char → List Char → Bool
  | _, [] => true
  | [], _ :: _ => false
  | c :: cs, p :: ps => c == p && startsWithL cs ps

/-- Python `needle in hay` substring containment, on char lists. -/
def containsL : List Char → List Char → Bool
  | [], needle => needle.isEmpty
  | c :: cs, needle => startsWithL (c :: cs) needle || containsL cs needle

/-- str.endswith, on char lists. -/
def endsWithL (hay needle : List Char) : Bool :=
  startsWithL hay.reverse needle.reverse

/-- ASCII lower-casing of one character (str.lower; the URLs and markers the
code compares are ASCII). -/
def asciiLower (c : Char) : Char :=
  if 'A' ≤ c ∧ c ≤ 'Z' then Char.ofNat (c.toNat + 32) else c

/-- Characters allowed in a URL scheme by urllib.parse (letters, digits,
plus, minus, dot). -/
def isSchemeChar (c : Char) : Bool :=
  decide (('a' ≤ c ∧ c ≤ 'z') ∨ ('A' ≤ c ∧ c ≤ 'Z') ∨ ('0' ≤ c ∧ c ≤ '9') ∨
    c = '+' ∨ c = '-' ∨ c = '.')

/-- Split a char list at the first occurrence of sep; none if sep is
absent. -/
def splitAtFirst (sep : Char) : List Char → Option (List Char × List Char)
  | [] => none
  | c :: rest =>
    if c = sep then some ([], rest)
    else
      match splitAtFirst sep rest with
      | none => none
      | some (a, b) => some (c :: a, b)

/-- Longest prefix not containing any of the stop characters, plus the
remainder (used to delimit the netloc at the first of "/?#"). -/
def spanNot (stops : List Char) : List Char → List Char × List Char
  | [] => ([], [])
  | c :: rest =>
    if stops.contains c then ([], c :: rest)
    else
      let p := spanNot stops rest
      (c :: p.1, p.2)

/-- The five components returned by urllib.parse.urlsplit. -/
structure UrlParts where
  scheme : List Char
  netloc : List Char
  path : List Char
  query : List Char
  fragment : List Char

/-- urllib.parse mismatched-IPv6-bracket check on the netloc; urlsplit raises
ValueError when it fails. -/
def bracketsMismatch (netloc : List Char) : Bool :=
  (netloc.contains '[' && !netloc.contains ']') ||
  (netloc.contains ']' && !netloc.contains '[')

/-- urllib.parse.urlsplit: scheme up to a ":" whose prefix is all scheme
characters, "//"-introduced netloc up to the first of "/?#", then the
fragment split at the first "#" and the query at the first "?". The error
case models the ValueError raised on mismatched IPv6 brackets. -/
def urlsplitE (url : List Char) : Except Unit UrlParts :=
  let schemeRest : List Char × List Char :=
    match splitAtFirst ':' url with
    | some (before, after) =>
      if !before.isEmpty && before.all isSchemeChar then
        (before.map asciiLower, after)
      else ([], url)
    | none => ([], url)
  let scheme := schemeRest.1
  let netlocRest : List Char × List Char :=
    match schemeRest.2 with
    | '/' :: '/' :: r => spanNot ['/', '?', '#'] r
    | other => ([], other)
  if bracketsMismatch netlocRest.1 then .error ()
  else
    let fragSplit : List Char × List Char :=
      match splitAtFirst '#' netlocRest.2 with
      | some (a, b) => (a, b)
      | none => (netlocRest.2, [])
    let querySplit : List Char × List Char :=
      match splitAtFirst '?' fragSplit.1 with
      | some (a, b) => (a, b)
      | none => (fragSplit.1, [])
    .ok ⟨scheme, netlocRest.1, querySplit.1, querySplit.2, fragSplit.2⟩

/-- Value of a hex digit, if any (for percent-decoding). -/
def hexVal (c : Char) : Option ℕ :=
  if '0' ≤ c ∧ c ≤ '9' then some (c.toNat - 48)
  else if 'a' ≤ c ∧ c ≤ 'f' then some (c.toNat - 87)
  else if 'A' ≤ c ∧ c ≤ 'F' then some (c.toNat - 55)
  else none

/-- urllib.parse.unquote, modelled for single-byte escapes: each valid %XX
escape becomes the character with code XX, malformed escapes are kept
verbatim (multi-byte UTF-8 escape sequences are outside the model; the URLs
the classifier claims exercise contain no escapes). -/
def unquoteL : List Char → List Char
  | [] => []
  | '%' :: a :: b :: rest =>
    match hexVal a, hexVal b with
    | some ha, some hb => Char.ofNat (16 * ha + hb) :: unquoteL rest
    | _, _ => '%' :: unquoteL (a :: b :: rest)
  | c :: rest => c :: unquoteL rest

/-- The direct_extensions list of is_direct_file_url. -/
def direct_extensions : List (List Char) :=
  [".mp4".data, ".webm".data, ".mkv".data, ".avi".data, ".mov".data,
   ".flv".data, ".wmv".data, ".m4v".data, ".jpg".data, ".jpeg".data,
   ".png".data, ".gif".data, ".webp".data, ".bmp".data]

/-- The extension test of is_direct_file_url: the unquoted, lower-cased path
ends with a known media extension, or contains it followed by "?" or "/". -/
def extensionHit (parts : UrlParts) : Bool :=
  let path := (unquoteL parts.path).map asciiLower
  direct_extensions.any fun ext =>
    endsWithL path ext || containsL path (ext ++ ['?']) ||
    containsL path (ext ++ ['/'])

/-- The query test of is_direct_file_url: the lower-cased query contains
"download=" or "download_filename=". -/
def downloadMarkerHit (parts : UrlParts) : Bool :=
  let query := parts.query.map asciiLower
  containsL query "download=".data || containsL query "download_filename=".data

/-- is_direct_file_url: true when the parsed URL passes the extension test or
the download-marker query test; any parse exception yields false. -/
def is_direct_file_url (url : String) : Bool :=
  match urlsplitE url.data with
  | .error _ => false
  | .ok parts => extensionHit parts || downloadMarkerHit parts

/- The yt-dlp progress-line parser parse_ytdlp_progress. Python floats are
modelled as exact rationals; the three re.search patterns are implemented as
leftmost searches with the backtracking alternatives the patterns admit. -/

/-- Decimal digit test (regex \d, ASCII). -/
def isDigitC (c : Char) : Bool := decide ('0' ≤ c ∧ c ≤ '9')

/-- Python \s whitespace class (ASCII part). -/
def isSpaceC (c : Char) : Bool :=
  c == ' ' || c == '\t' || c == '\n' || c == '\r' || c == '\x0b' || c == '\x0c'

/-- Numeric value of a digit string. -/
def digitsVal (l : List Char) : ℕ :=
  l.foldl (fun acc c => 10 * acc + (c.toNat - 48)) 0

/-- Consume the greedy maximum of trailing whitespace. -/
def wsDrop (l : List Char) : List Char := l.dropWhile isSpaceC

/-- Match regex \s+: at least one whitespace character, greedily. -/
def wsPlus : List Char → Option (List Char)
  | [] => none
  | c :: rest => if isSpaceC c then some (wsDrop rest) else none

/-- First alternative on which f succeeds. -/
def firstSome {α β : Type} (f : α → Option β) : List α → Option β
  | [] => none
  | a :: rest =>
    match f a with
    | some b => some b
    | none => firstSome f rest

/-- Matches of the regex fragment (\d+\.?\d*) at the head of l, as
(value, rest) pairs in backtracking priority order: the greedy match
including a decimal point first, then the match of the integer part alone. -/
def numMatches (l : List Char) : List (ℚ × List Char) :=
  let ds := l.takeWhile isDigitC
  let rest := l.dropWhile isDigitC
  if ds.isEmpty then []
  else
    let intVal : ℚ := (digitsVal ds : ℕ)
    match rest with
    | '.' :: r2 =>
      let fs := r2.takeWhile isDigitC
      let rest2 := r2.dropWhile isDigitC
      [(intVal + (digitsVal fs : ℕ) / (10 : ℚ) ^ fs.length, rest2),
       (intVal, rest)]
    | _ => [(intVal, rest)]

/-- The alternatives of the unit group (Ki?B|Mi?B|Gi?B) in regex priority
order (no two can match at the same position, so the order is immaterial). -/
def unitAlts : List String := ["KiB", "KB", "MiB", "MB", "GiB", "GB"]

/-- Match the unit group at the head of l. -/
def matchUnit (l : List Char) : Option (String × List Char) :=
  firstSome
    (fun u => if startsWithL l u.data then some (u, l.drop u.data.length) else none)
    unitAlts

/-- The inline multipliers table: binary units at base 1024, decimal units at
base 1000, with dict.get default 1. -/
def unitMultiplier (u : String) : ℚ :=
  if u = "KiB" then 1024
  else if u = "KB" then 1000
  else if u = "MiB" then 1024 * 1024
  else if u = "MB" then 1000 * 1000
  else if u = "GiB" then 1024 * 1024 * 1024
  else if u = "GB" then 1000 * 1000 * 1000
  else 1

/-- Match the pattern
\[download\]\s+(\d+\.?\d*)%\s+of\s+~?(\d+\.?\d*)(Ki?B|Mi?B|Gi?B)
at the head of l, returning (percentage, size value, size unit). -/
def matchProgressHead (l : List Char) : Option (ℚ × ℚ × String) :=
  if startsWithL l "[download]".data then
    match wsPlus (l.drop 10) with
    | none => none
    | some l2 =>
      firstSome
        (fun pr =>
          match pr.2 with
          | '%' :: r2 =>
            match wsPlus r2 with
            | none => none
            | some r3 =>
              if startsWithL r3 "of".data then
                match wsPlus (r3.drop 2) with
                | none => none
                | some r4 =>
                  let r5 := match r4 with
                    | '~' :: t => t
                    | other => other
                  firstSome
                    (fun sr =>
                      match matchUnit sr.2 with
                      | some (u, _) => some (pr.1, sr.1, u)
                      | none => none)
                    (numMatches r5)
              else none
          | _ => none)
        (numMatches l2)
  else none

/-- re.search for the main progress pattern: leftmost matching position. -/
def searchProgress : List Char → Option (ℚ × ℚ × String)
  | [] => none
  | c :: rest =>
    match matchProgressHead (c :: rest) with
    | some r => some r
    | none => searchProgress rest

/-- Match the speed pattern at\s+(\d+\.?\d*)(Ki?B|Mi?B|Gi?B)/s at the head of
l, returning (speed value, speed unit). -/
def matchSpeedHead (l : List Char) : Option (ℚ × String) :=
  if startsWithL l "at".data then
    match wsPlus (l.drop 2) with
    | none => none
    | some r =>
      firstSome
        (fun sr =>
          match matchUnit sr.2 with
          | some (u, r3) =>
            if startsWithL r3 "/s".data then some (sr.1, u) else none
          | none => none)
        (numMatches r)
  else none

/-- re.search for the speed pattern. -/
def searchSpeed : List Char → Option (ℚ × String)
  | [] => none
  | c :: rest =>
    match matchSpeedHead (c :: rest) with
    | some r => some r
    | none => searchSpeed rest

/-- Match the ETA pattern ETA\s+(\d+):(\d+) at the head of l, returning
(minutes, seconds). -/
def matchEtaHead (l : List Char) : Option (ℕ × ℕ) :=
  if startsWithL l "ETA".data then
    match wsPlus (l.drop 3) with
    | none => none
    | some r =>
      let m := r.takeWhile isDigitC
      if m.isEmpty then none
      else
        match r.dropWhile isDigitC with
        | ':' :: r3 =>
          let s := r3.takeWhile isDigitC
          if s.isEmpty then none else some (digitsVal m, digitsVal s)
        | _ => none
  else none

/-- re.search for the ETA pattern. -/
def searchEta : List Char → Option (ℕ × ℕ)
  | [] => none
  | c :: rest =>
    match matchEtaHead (c :: rest) with
    | some r => some r
    | none => searchEta rest

/-- The progress record built by parse_ytdlp_progress. -/
structure ProgressInfo where
  percentage : ℚ
  downloaded_bytes : ℤ
  total_bytes : ℤ
  speed : Option ℤ
  eta : Option ℤ
deriving DecidableEq

/-- parse_ytdlp_progress: for a line carrying the "[download]" prefix, parse
percentage, size and unit; total_bytes is the size scaled by the unit
multiplier, downloaded_bytes is int(total_bytes * percentage / 100); speed
and ETA are filled in when their patterns match. -/
def parse_ytdlp_progress (line : String) : Option ProgressInfo :=
  if startsWithL line.data "[download]".data then
    match searchProgress line.data with
    | none => none
    | some (pct, sizeVal, u) =>
      let total := pyInt (sizeVal * unitMultiplier u)
      some
      { percentage := pct
        downloaded_bytes := pyInt ((total : ℚ) * pct / 100)
        total_bytes := total
        speed := (searchSpeed line.data).map fun sp =>
          pyInt (sp.1 * unitMultiplier sp.2)
        eta := (searchEta line.data).map fun ms =>
          (ms.1 : ℤ) * 60 + (ms.2 : ℤ) }
  else none

/- The strategy-selection control flow of task_download, abstracted to the
sequence of downloader invocations it performs. -/

/-- One downloader invocation made by task_download. -/
inductive Attempt where
  | direct (url : String)
  | ytdlp (url : String)
deriving DecidableEq

/-- Attempt.direct discriminator. -/
def isDirectAttempt : Attempt → Bool
  | .direct _ => true
  | .ytdlp _ => false

/-- Attempt.ytdlp discriminator. -/
def isYtdlpAttempt : Attempt → Bool
  | .direct _ => false
  | .ytdlp _ => true

/-- Outcomes of the external collaborators of task_download: whether
download_direct_file returns a path, and whether check_ytdlp reports the
extraction tool available. -/
structure DlEnv where
  directOk : Bool
  ytdlpAvailable : Bool

/-- The ordered list of downloader invocations task_download makes, following
its control flow: an empty url returns immediately; a direct-file URL is
fetched directly first and, on failure, yt-dlp is tried with the fallback
URL when one was supplied and with the original URL otherwise; a
needs-extraction URL goes straight to yt-dlp; yt-dlp is only invoked when
check_ytdlp succeeds. -/
def task_download_attempts (url : String) (fallback_url : Option String)
    (env : DlEnv) : List Attempt :=
  if url = "" then []
  else if is_direct_file_url url then
    if env.directOk then [.direct url]
    else if env.ytdlpAvailable then [.direct url, .ytdlp (fallback_url.getD url)]
    else [.direct url]
  else if env.ytdlpAvailable then [.ytdlp url]
  else []

/- The task dispatcher in main. -/

/-- The closed handler table of main. -/
def knownTasks : List String :=
  ["download", "extract_metadata", "read_result", "cleanup_result",
   "check_ytdlp", "test_proxy", "fetch_image", "scrape_reddit", "check_praw",
   "fetch_posts", "embed_metadata", "check_metadata_deps"]

/-- The args dict main dispatches with: the nested "args" value when present
and a dict, otherwise the top-level input object itself. -/
def effectiveArgs (fields : List (String × Json)) : List (String × Json) :=
  match dget fields "args" with
  | some (.obj af) => af
  | _ => fields

/-- The task selector main computes:
args.get("mode") or args.get("task", "download"). -/
def selectTaskVal (args : List (String × Json)) : Json :=
  let m := (dget args "mode").getD Json.null
  if pyTruthy m then m else (dget args "task").getD (Json.str "download")

/-- The envelope main builds for an unknown task with a string selector (the
f-string of a str is the str itself). -/
def unknown_task_envelope (s : String) : List (String × Json) :=
  [("result_error", Json.str ("Unknown task: " ++ s)),
   ("success", Json.bool false)]

/-- What main does with the selected task: invoke a handler from the closed
set, write the unknown-task envelope, write an unknown-task envelope whose
message renders a non-string hashable selector, or raise (unhashable
selector) into the last-resort guard. -/
inductive TaskOutcome where
  | handled (task : String)
  | unknownTask (envelope : List (String × Json))
  | unknownTaskNonString (selector : Json)
  | raises

/-- main's dispatch on the stdin object. -/
def dispatch_task (fields : List (String × Json)) : TaskOutcome :=
  match selectTaskVal (effectiveArgs fields) with
  | .str s =>
    if s ∈ knownTasks then .handled s
    else .unknownTask (unknown_task_envelope s)
  | .bool b => .unknownTaskNonString (.bool b)
  | .null => .unknownTaskNonString .null
  | .num q => .unknownTaskNonString (.num q)
  | .arr _ => .raises
  | .obj _ => .raises

/-- Process exit code of main: 1 only when an exception reaches the
last-resort guard, 0 for every handled outcome. -/
def exit_code : TaskOutcome → ℕ
  | .raises => 1
  | _ => 0

/- task_read_result. -/

/-- The not-found envelope of task_read_result. -/
def not_found_envelope : List (String × Json) :=
  [("success", Json.bool true), ("retrieved", Json.bool false),
   ("not_found", Json.bool true)]

/-- The missing-result_id envelope of task_read_result. -/
def no_result_id_envelope : List (String × Json) :=
  [("success", Json.bool false),
   ("result_error", Json.str "No result_id provided"),
   ("retrieved", Json.bool false)]

/-- Step 1 of task_read_result on a found record: {**data, "retrieved": True}. -/
def readR0 (fields : List (String × Json)) : List (String × Json) :=
  dinsert fields "retrieved" (Json.bool true)

/-- Step 2: rename "result_error" to "task_error" if present. -/
def readR1 (fields : List (String × Json)) : List (String × Json) :=
  if dcontains (readR0 fields) "result_error" then
    dinsert (derase (readR0 fields) "result_error") "task_error"
      ((dget (readR0 fields) "result_error").getD Json.null)
  else readR0 fields

/-- Step 3: rename "error" to "task_error" if present. -/
def readR2 (fields : List (String × Json)) : List (String × Json) :=
  if dcontains (readR1 fields) "error" then
    dinsert (derase (readR1 fields) "error") "task_error"
      ((dget (readR1 fields) "error").getD Json.null)
  else readR1 fields

/-- Step 4: add "success" when absent — False exactly when "task_error" is
present. -/
def renameResultFields (fields : List (String × Json)) : List (String × Json) :=
  if dcontains (readR2 fields) "success" then readR2 fields
  else dinsert (readR2 fields) "success" (Json.bool (!dcontains (readR2 fields) "task_error"))

/-- task_read_result for a string result_id over the store. The RESULT_DIR
existence check is elided (the directory is created at import time); the
none result models the TypeError raised when a stored document is truthy but
not a dict, which this program never writes. -/
def task_read_result (root : String) (st : Store) (result_id : String) :
    Option (List (String × Json)) :=
  if result_id = "" then some no_result_id_envelope
  else
    match load_result root st result_id with
    | some d =>
      if pyTruthy d then
        match d with
        | Json.obj fields => some (renameResultFields fields)
        | _ => none
      else some not_found_envelope
    | none => some not_found_envelope

/- Event traces of one invocation of download_direct_file and of
download_video. An event is an observable side effect; result-store writes
of progress records carry the record status and the time.time() reading
taken for the write. -/

/-- Observable side effects of a downloader invocation. -/
inductive Event where
  | httpGet (url : String)
  | spawn
  | store (id status : String) (t : ℚ)
  | chunkWrite (n : ℕ)
deriving DecidableEq

/-- progress_update_interval = 0.5 seconds. -/
def progress_update_interval : ℚ := 1 / 2

/-- Event.store with status "starting". -/
def isStartStore : Event → Bool
  | .store _ s _ => s == "starting"
  | _ => false

/-- Event.spawn discriminator. -/
def isSpawn : Event → Bool
  | .spawn => true
  | _ => false

/-- Event.httpGet discriminator. -/
def isHttpGet : Event → Bool
  | .httpGet _ => true
  | _ => false

/-- Event.chunkWrite discriminator. -/
def isChunkWrite : Event → Bool
  | .chunkWrite _ => true
  | _ => false

/-- The data of a successful HTTP response in download_direct_file: the
content-length header value and, for each streamed chunk, the time.time()
reading taken when it is processed and its byte length. -/
structure HttpOk where
  contentLength : ℕ
  chunks : List (ℚ × ℕ)

/-- The chunk-streaming loop of download_direct_file: empty chunks are
skipped; every other chunk is written to disk, and a progress record is
written when a progress_id is set, the total size is known, and at least
progress_update_interval has elapsed since the last progress write
(last_progress_update starts at 0). -/
def directChunkLoop (pid : Option String) (total : ℕ) :
    List (ℚ × ℕ) → ℚ → List Event
  | [], _ => []
  | (t, n) :: rest, last =>
    if n = 0 then directChunkLoop pid total rest last
    else
      Event.chunkWrite n ::
        match pid with
        | some p =>
          if 0 < total ∧ last + progress_update_interval ≤ t then
            Event.store ("progress-" ++ p) "downloading" t ::
              directChunkLoop pid total rest t
          else directChunkLoop pid total rest last
        | none => directChunkLoop pid total rest last

/-- The event trace of download_direct_file: the streaming GET is issued
first (the initial progress record needs the content-length from the
response headers); on a failed request the function returns None with no
further events; on success the initial "starting" record is written (when a
progress_id is set) and the body is streamed through the chunk loop. -/
def downloadDirectFileEvents (url : String) (pid : Option String)
    (resp : Option HttpOk) (tStart : ℚ) : List Event :=
  Event.httpGet url ::
    match resp with
    | none => []
    | some ok =>
      (match pid with
       | some p => [Event.store ("progress-" ++ p) "starting" tStart]
       | none => []) ++
        directChunkLoop pid ok.contentLength ok.chunks 0

/-- The path-line test of the download_video output loop:
line.startswith("/") or (len(line) > 2 and line[1] == ":"). -/
def isPathLine (s : String) : Bool :=
  match s.data with
  | '/' :: _ => true
  | _ :: ':' :: _ :: _ => true
  | _ => false

/-- The subprocess output loop of download_video over the reassembled,
stripped lines, each paired with the time.time() reading taken when it is
processed: empty lines and path lines produce no store write; a line the
progress parser accepts, or a non-progress "[download]"/"[info]" heartbeat
line, writes a "downloading" progress record when a progress_id is set and
at least progress_update_interval has elapsed since the last progress write
(last_progress_update starts at 0). -/
def videoLineLoop (pid : Option String) :
    List (ℚ × String) → ℚ → List Event
  | [], _ => []
  | (t, line) :: rest, last =>
    if line = "" then videoLineLoop pid rest last
    else if isPathLine line then videoLineLoop pid rest last
    else
      match parse_ytdlp_progress line with
      | some _ =>
        match pid with
        | some p =>
          if last + progress_update_interval ≤ t then
            Event.store ("progress-" ++ p) "downloading" t ::
              videoLineLoop pid rest t
          else videoLineLoop pid rest last
        | none => videoLineLoop pid rest last
      | none =>
        if containsL line.data "[download]".data ||
            containsL line.data "[info]".data then
          match pid with
          | some p =>
            if last + progress_update_interval ≤ t then
              Event.store ("progress-" ++ p) "downloading" t ::
                videoLineLoop pid rest t
            else videoLineLoop pid rest last
          | none => videoLineLoop pid rest last
        else videoLineLoop pid rest last

/-- The stdout_lines accumulator of download_video: the non-empty path-shaped
lines, in order. -/
def capturedPaths (lines : List (ℚ × String)) : List String :=
  (lines.map Prod.snd).filter fun l => !(l == "") && isPathLine l

/-- The external inputs of one download_video invocation: the timed output
lines of the subprocess, its exit status, whether the captured output path
exists on disk, the newest file found when scanning the output directory,
and the time.time() reading of the terminal record write. -/
structure VideoRun where
  lines : List (ℚ × String)
  exitOk : Bool
  pathOk : Bool
  dirFallback : Option String
  tEnd : ℚ

/-- The terminal progress write of download_video: on exit code 0 with a
usable output path (captured, and existing on disk) or a directory-scan
fallback, a "complete" record; otherwise an "error" record. Written only
when a progress_id is set. -/
def videoTerminalEvents (pid : Option String) (run : VideoRun)
    (paths : List String) : List Event :=
  match pid with
  | none => []
  | some p =>
    if run.exitOk then
      match paths.getLast? with
      | some _ =>
        if run.pathOk then [Event.store ("progress-" ++ p) "complete" run.tEnd]
        else
          match run.dirFallback with
          | some _ => [Event.store ("progress-" ++ p) "complete" run.tEnd]
          | none => [Event.store ("progress-" ++ p) "error" run.tEnd]
      | none =>
        match run.dirFallback with
        | some _ => [Event.store ("progress-" ++ p) "complete" run.tEnd]
        | none => [Event.store ("progress-" ++ p) "error" run.tEnd]
    else [Event.store ("progress-" ++ p) "error" run.tEnd]

/-- The event trace of download_video: the initial "starting" record (when a
progress_id is set, with the time.time() reading tStart), then the
subprocess spawn, then the output loop, then the terminal record. -/
def downloadVideoEvents (pid : Option String) (tStart : ℚ)
    (run : VideoRun) : List Event :=
  (match pid with
   | some p => [Event.store ("progress-" ++ p) "starting" tStart]
   | none => []) ++
    Event.spawn ::
      (videoLineLoop pid run.lines 0 ++
        videoTerminalEvents pid run (capturedPaths run.lines))

/-- Times of the result-store writes in a trace, in order. -/
def storeTimes (l : List Event) : List ℚ :=
  l.filterMap fun e =>
    match e with
    | .store _ _ t => some t
    | _ => none

/-- The times in the list are pairwise separated by at least iv, and the
first is at least iv after the given starting point. -/
def SepFrom (iv : ℚ) : ℚ → List ℚ → Prop
  | _, [] => True
  | last, t :: rest => last + iv ≤ t ∧ SepFrom iv t rest

/-- Every p-event of the trace occurs strictly before every q-event. -/
def precedesIn (l : List Event) (p q : Event → Bool) : Prop :=
  ∀ i j, (∃ e, l.get? i = some e ∧ p e = true) →
    (∃ e, l.get? j = some e ∧ q e = true) → i < j

end StashDownloader

namespace StashDownloader

/- Helper lemmas on strings and dictionaries. -/

theorem strData_append (a b : String) : (a ++ b).data = a.data ++ b.data := by
  cases a; cases b; rfl

theorem strAppend_assoc (a b c : String) : a ++ b ++ c = a ++ (b ++ c) := by
  cases a; cases b; cases c
  show String.mk _ = String.mk _
  simp [String.append, List.append_assoc]

theorem dget_dinsert_self (l : List (String × Json)) (k : String) (v : Json) :
    dget (dinsert l k v) k = some v := by
  induction l with
  | nil => simp [dinsert, dget]
  | cons hd tl ih =>
    obtain ⟨k1, v1⟩ := hd
    by_cases h : k1 = k
    · simp [dinsert, h, dget]
    · simp [dinsert, h, dget, ih]

theorem dget_dinsert_of_ne (l : List (String × Json)) (k k2 : String)
    (v : Json) (h : k ≠ k2) : dget (dinsert l k v) k2 = dget l k2 := by
  induction l with
  | nil => simp [dinsert, dget, h]
  | cons hd tl ih =>
    obtain ⟨k1, v1⟩ := hd
    by_cases h1 : k1 = k
    · subst h1
      simp [dinsert, dget, h]
    · simp only [dinsert, if_neg h1, dget]
      by_cases h2 : k1 = k2
      · simp [h2]
      · simp [h2, ih]

theorem dget_derase_self (l : List (String × Json)) (k : String) :
    dget (derase l k) k = none := by
  induction l with
  | nil => simp [derase, dget]
  | cons hd tl ih =>
    obtain ⟨k1, v1⟩ := hd
    by_cases h : k1 = k
    · simpa [derase, List.filter_cons, h] using ih
    · simpa [derase, List.filter_cons, dget, h] using ih

theorem dget_derase_of_ne (l : List (String × Json)) (k k2 : String)
    (h : k ≠ k2) : dget (derase l k) k2 = dget l k2 := by
  induction l with
  | nil => simp [derase, dget]
  | cons hd tl ih =>
    obtain ⟨k1, v1⟩ := hd
    by_cases h1 : k1 = k
    · subst h1
      simpa [derase, List.filter_cons, dget, h] using ih
    · simp only [derase, List.filter_cons] at ih ⊢
      by_cases h2 : k1 = k2
      · subst h2
        simp [Ne.symm h, dget]
      · simp [h1, h2, dget, ih]

theorem dget_eq_none_of_dcontains_false {l : List (String × Json)} {k : String}
    (h : dcontains l k = false) : dget l k = none := by
  unfold dcontains at h
  cases hg : dget l k with
  | none => rfl
  | some v => rw [hg] at h; simp at h

theorem dcontains_dinsert_self (l : List (String × Json)) (k : String)
    (v : Json) : dcontains (dinsert l k v) k = true := by
  simp [dcontains, dget_dinsert_self]

theorem dcontains_of_dget_eq {l l2 : List (String × Json)} {k k2 : String}
    (h : dget l k = dget l2 k2) : dcontains l k = dcontains l2 k2 := by
  simp [dcontains, h]

theorem isSafeIdChar_ne_slash {c : Char} (h : isSafeIdChar c = true) :
    c ≠ '/' := by
  intro hc
  subst hc
  simp [isSafeIdChar] at h

theorem isSafeIdChar_ne_dot {c : Char} (h : isSafeIdChar c = true) :
    c ≠ '.' := by
  intro hc
  subst hc
  simp [isSafeIdChar] at h

/-- Claim C1: for every id string, including ids containing path-traversal
sequences such as "../../etc/passwd", the result store file path computed by
get_result_path is the results root followed by a single filename built from
the [A-Za-z0-9_-]-filtered id plus ".json"; the filename contains no slash
and its stem contains no dot, so the path never escapes the results root. -/
theorem get_result_path_no_escape (root result_id : String)
    (h1 : root ≠ "") (h2 : lastCharIsSlash root = false) :
    ∃ stem : String,
      get_result_path root result_id = root ++ "/" ++ stem ++ ".json" ∧
      (∀ c ∈ stem.data, isSafeIdChar c = true) ∧
      '/' ∉ stem.data ∧ '.' ∉ stem.data := by
  have hsafe : ∀ c ∈ (sanitizeId result_id).data, isSafeIdChar c = true := by
    intro c hc
    have hm : c ∈ result_id.data.filter isSafeIdChar := hc
    exact (List.mem_filter.mp hm).2
  refine ⟨sanitizeId result_id, ?_, hsafe, ?_, ?_⟩
  · have hb : firstCharIsSlash (sanitizeId result_id ++ ".json") = false := by
      rw [firstCharIsSlash, strData_append]
      cases hd : (sanitizeId result_id).data with
      | nil => simp [hd]
      | cons c rest =>
        have hc : isSafeIdChar c = true := by
          apply hsafe
          rw [hd]; exact List.mem_cons_self c rest
        have : c ≠ '/' := isSafeIdChar_ne_slash hc
        simp [hd, this]
    rw [get_result_path, posixJoin, hb, h2]
    simp only [Bool.false_eq_true, if_false, if_neg h1]
    exact (strAppend_assoc (root ++ "/") (sanitizeId result_id) ".json").symm
  · intro hc
    have : isSafeIdChar '/' = true := by
      have := List.mem_filter.mp (show '/' ∈ result_id.data.filter isSafeIdChar from hc)
      exact this.2
    simp [isSafeIdChar] at this
  · intro hc
    have : isSafeIdChar '.' = true := by
      have := List.mem_filter.mp (show '.' ∈ result_id.data.filter isSafeIdChar from hc)
      exact this.2
    simp [isSafeIdChar] at this

theorem get_result_path_no_escape_witness :
    ("/res" : String) ≠ "" ∧ lastCharIsSlash "/res" = false ∧
    ∃ stem : String,
      get_result_path "/res" "../../etc/passwd" = "/res" ++ "/" ++ stem ++ ".json" ∧
      (∀ c ∈ stem.data, isSafeIdChar c = true) ∧
      '/' ∉ stem.data ∧ '.' ∉ stem.data :=
  ⟨by decide, by decide,
    get_result_path_no_escape "/res" "../../etc/passwd" (by decide) (by decide)⟩

/-- Claim C5: save_result(id, R) followed by load_result(id) returns a record
equal to R, for any record R and any prior store contents. -/
theorem save_then_load_roundtrip (root : String) (st : Store)
    (result_id : String) (r : Json) :
    load_result root (save_result root st result_id r).1 result_id = some r := by
  unfold load_result save_result
  exact dget_dinsert_self st (get_result_path root result_id) r

/-- Claim C9: delete_result on an id whose file does not exist returns
success, leaves the store unchanged, and a subsequent load_result still
reports the record as absent. -/
theorem delete_absent_succeeds (root : String) (st : Store)
    (result_id : String)
    (h : load_result root st result_id = none) :
    (delete_result root st result_id).2 = true ∧
    load_result root (delete_result root st result_id).1 result_id = none := by
  refine ⟨rfl, ?_⟩
  unfold load_result delete_result
  exact dget_derase_self st (get_result_path root result_id)

/-- Claim C7: the URL classifier returns direct for
"https://cdn.example.com/a/b/video.mp4" and for
"https://cdn.example.com/x.mp4?download_filename=foo.mp4", returns
needs-extraction for "https://example.com/watch?v=abc", and every URL it
classifies as direct passes the recognised-extension test or the
download-marker query test — so a URL with neither recognised marker is
always classified needs-extraction. -/
theorem is_direct_file_url_spec :
    is_direct_file_url "https://cdn.example.com/a/b/video.mp4" = true ∧
    is_direct_file_url "https://cdn.example.com/x.mp4?download_filename=foo.mp4" = true ∧
    is_direct_file_url "https://example.com/watch?v=abc" = false ∧
    ∀ url : String, is_direct_file_url url = true →
      ∃ parts, urlsplitE url.data = .ok parts ∧
        (extensionHit parts = true ∨ downloadMarkerHit parts = true) := by
  refine ⟨by decide, by decide, by decide, ?_⟩
  intro url h
  unfold is_direct_file_url at h
  cases he : urlsplitE url.data with
  | error e =>
    rw [he] at h
    exact absurd h (by simp)
  | ok parts =>
    rw [he] at h
    exact ⟨parts, rfl, by simpa using h⟩

theorem is_direct_file_url_spec_witness :
    ∃ parts,
      urlsplitE ("https://cdn.example.com/a/b/video.mp4" : String).data = .ok parts ∧
      (extensionHit parts = true ∨ downloadMarkerHit parts = true) :=
  is_direct_file_url_spec.2.2.2 "https://cdn.example.com/a/b/video.mp4" (by decide)

unseal Rat.add Rat.mul Rat.inv Rat.sub in
/-- Claim C6: the progress-line parser maps
"[download]  50.0% of 100.00MiB at 5.00MiB/s ETA 00:10" to percentage 50,
total_bytes 104857600, downloaded_bytes 52428800, speed 5242880 and eta 10;
for every parsed line, downloaded_bytes is total_bytes * percentage / 100
truncated to an integer; and the unit table converts binary units at base
1024 and decimal units at base 1000. -/
theorem parse_ytdlp_progress_spec :
    parse_ytdlp_progress "[download]  50.0% of 100.00MiB at 5.00MiB/s ETA 00:10" =
      some { percentage := 50, downloaded_bytes := 52428800,
             total_bytes := 104857600, speed := some 5242880, eta := some 10 } ∧
    (∀ (line : String) (info : ProgressInfo),
        parse_ytdlp_progress line = some info →
        info.downloaded_bytes = pyInt ((info.total_bytes : ℚ) * info.percentage / 100)) ∧
    unitMultiplier "KiB" = 1024 ∧ unitMultiplier "MiB" = 1024 ^ 2 ∧
    unitMultiplier "GiB" = 1024 ^ 3 ∧ unitMultiplier "KB" = 1000 ∧
    unitMultiplier "MB" = 1000 ^ 2 ∧ unitMultiplier "GB" = 1000 ^ 3 := by
  refine ⟨by decide, ?_, by decide, by decide, by decide, by decide, by decide,
    by decide⟩
  intro line info h
  unfold parse_ytdlp_progress at h
  split at h
  · split at h
    · exact absurd h (by simp)
    · rw [Option.some.injEq] at h
      subst h
      rfl
  · exact absurd h (by simp)

unseal Rat.add Rat.mul Rat.inv Rat.sub in
theorem parse_ytdlp_progress_spec_witness :
    (({ percentage := 50, downloaded_bytes := 52428800, total_bytes := 104857600,
        speed := some 5242880, eta := some 10 } : ProgressInfo)).downloaded_bytes =
      pyInt (((104857600 : ℤ) : ℚ) * 50 / 100) :=
  parse_ytdlp_progress_spec.2.1
    "[download]  50.0% of 100.00MiB at 5.00MiB/s ETA 00:10"
    { percentage := 50, downloaded_bytes := 52428800, total_bytes := 104857600,
      speed := some 5242880, eta := some 10 } (by decide)

theorem delete_absent_succeeds_witness :
    load_result "/res" [] "job1" = none ∧
    ((delete_result "/res" ([] : Store) "job1").2 = true ∧
      load_result "/res" (delete_result "/res" ([] : Store) "job1").1 "job1" = none) :=
  ⟨rfl, delete_absent_succeeds "/res" [] "job1" rfl⟩

/-- Claim C2: when the URL is classified as a direct-file URL, the direct
fetch fails, the extraction tool is available and a fallback page URL was
supplied, task_download invokes the fetchers in the order [direct original,
yt-dlp fallback] — yt-dlp gets the fallback URL instead of the original;
moreover in every run each downloader is invoked at most once (no automatic
retry), and yt-dlp ever receives a URL other than the request URL only in
exactly this direct-classified, direct-failed, fallback-supplied case. -/
theorem download_fallback_spec (url f : String) (env : DlEnv)
    (hurl : url ≠ "") (hdirect : is_direct_file_url url = true)
    (hfail : env.directOk = false) (havail : env.ytdlpAvailable = true) :
    task_download_attempts url (some f) env =
      [Attempt.direct url, Attempt.ytdlp f] ∧
    (∀ (u : String) (fb : Option String) (e : DlEnv),
      (task_download_attempts u fb e).countP isDirectAttempt ≤ 1 ∧
      (task_download_attempts u fb e).countP isYtdlpAttempt ≤ 1) ∧
    (∀ (u u2 : String) (fb : Option String) (e : DlEnv),
      Attempt.ytdlp u2 ∈ task_download_attempts u fb e →
      u2 = u ∨ (is_direct_file_url u = true ∧ e.directOk = false ∧
        fb = some u2)) := by
  refine ⟨?_, ?_, ?_⟩
  · simp [task_download_attempts, hurl, hdirect, hfail, havail]
  · intro u fb e
    unfold task_download_attempts
    split
    · constructor <;> decide
    · split
      · split
        · constructor <;> simp [List.countP, List.countP.go, isDirectAttempt, isYtdlpAttempt]
        · split
          · constructor <;> simp [List.countP, List.countP.go, isDirectAttempt, isYtdlpAttempt]
          · constructor <;> simp [List.countP, List.countP.go, isDirectAttempt, isYtdlpAttempt]
      · split
        · constructor <;> simp [List.countP, List.countP.go, isDirectAttempt, isYtdlpAttempt]
        · constructor <;> decide
  · intro u u2 fb e hmem
    unfold task_download_attempts at hmem
    by_cases h0 : u = ""
    · simp [h0] at hmem
    · rw [if_neg h0] at hmem
      by_cases h1 : is_direct_file_url u = true
      · rw [if_pos h1] at hmem
        by_cases h2 : e.directOk = true
        · simp [h2] at hmem
        · rw [Bool.not_eq_true] at h2
          rw [h2] at hmem
          simp only [Bool.false_eq_true, if_false] at hmem
          by_cases h3 : e.ytdlpAvailable = true
          · rw [if_pos h3] at hmem
            simp only [List.mem_cons, List.not_mem_nil, or_false] at hmem
            rcases hmem with h | h
            · exact absurd h (by simp)
            · cases fb with
              | none =>
                left
                simpa using h
              | some v =>
                right
                refine ⟨h1, h2, ?_⟩
                have hv : u2 = v := by simpa using h
                rw [hv]
          · rw [if_neg h3] at hmem
            simp at hmem
      · rw [if_neg h1] at hmem
        by_cases h3 : e.ytdlpAvailable = true
        · rw [if_pos h3] at hmem
          left
          simpa using hmem
        · rw [if_neg h3] at hmem
          simp at hmem

theorem download_fallback_spec_witness :
    task_download_attempts "https://cdn.example.com/a/b/video.mp4"
        (some "https://example.com/watch?v=abc") ⟨false, true⟩ =
      [Attempt.direct "https://cdn.example.com/a/b/video.mp4",
       Attempt.ytdlp "https://example.com/watch?v=abc"] ∧
    (∀ (u : String) (fb : Option String) (e : DlEnv),
      (task_download_attempts u fb e).countP isDirectAttempt ≤ 1 ∧
      (task_download_attempts u fb e).countP isYtdlpAttempt ≤ 1) ∧
    (∀ (u u2 : String) (fb : Option String) (e : DlEnv),
      Attempt.ytdlp u2 ∈ task_download_attempts u fb e →
      u2 = u ∨ (is_direct_file_url u = true ∧ e.directOk = false ∧
        fb = some u2)) :=
  download_fallback_spec "https://cdn.example.com/a/b/video.mp4"
    "https://example.com/watch?v=abc" ⟨false, true⟩ (by decide) (by decide)
    rfl rfl

/-- Claim C8 counterexample: the input {"mode": ""} carries a task selector
("") that is not in the handler set, yet the dispatcher does not return an
unknown-task failure — the falsy selector falls through to the default and
the download handler is invoked. -/
theorem dispatch_empty_mode_counterexample :
    ¬ ("" ∈ knownTasks) ∧
    dispatch_task [("mode", Json.str "")] = TaskOutcome.handled "download" := by
  constructor
  · decide
  · rfl

/-- Claim C8, amended: for every input object whose effective task selector
(the truthy "mode" value, else the "task" value, else the "download"
default) is a string outside the closed handler set, main returns the
tagged unknown-task envelope — result_error mentioning the unknown task and
success false — rather than raising, and the process exit code is 0. -/
theorem dispatch_unknown_task (fields : List (String × Json)) (s : String)
    (hsel : selectTaskVal (effectiveArgs fields) = Json.str s)
    (hunk : s ∉ knownTasks) :
    dispatch_task fields = TaskOutcome.unknownTask (unknown_task_envelope s) ∧
    exit_code (dispatch_task fields) = 0 ∧
    dget (unknown_task_envelope s) "result_error" =
      some (Json.str ("Unknown task: " ++ s)) ∧
    dget (unknown_task_envelope s) "success" = some (Json.bool false) := by
  have h1 : dispatch_task fields = .unknownTask (unknown_task_envelope s) := by
    unfold dispatch_task
    rw [hsel]
    simp [hunk]
  refine ⟨h1, ?_, rfl, rfl⟩
  rw [h1]
  rfl

theorem dispatch_unknown_task_witness :
    dispatch_task [("mode", Json.str "frobnicate")] =
      TaskOutcome.unknownTask (unknown_task_envelope "frobnicate") ∧
    exit_code (dispatch_task [("mode", Json.str "frobnicate")]) = 0 ∧
    dget (unknown_task_envelope "frobnicate") "result_error" =
      some (Json.str ("Unknown task: " ++ "frobnicate")) ∧
    dget (unknown_task_envelope "frobnicate") "success" =
      some (Json.bool false) :=
  dispatch_unknown_task [("mode", Json.str "frobnicate")] "frobnicate" rfl
    (by decide)

theorem readR1_facts (f : List (String × Json)) :
    dget (readR1 f) "result_error" = none ∧
    dget (readR1 f) "error" = dget f "error" ∧
    dget (readR1 f) "retrieved" = some (Json.bool true) ∧
    dget (readR1 f) "success" = dget f "success" ∧
    (dcontains f "result_error" = true →
      dcontains (readR1 f) "task_error" = true) := by
  have hR0re : dget (readR0 f) "result_error" = dget f "result_error" :=
    dget_dinsert_of_ne f "retrieved" "result_error" (Json.bool true) (by decide)
  have hR0e : dget (readR0 f) "error" = dget f "error" :=
    dget_dinsert_of_ne f "retrieved" "error" (Json.bool true) (by decide)
  have hR0r : dget (readR0 f) "retrieved" = some (Json.bool true) :=
    dget_dinsert_self f "retrieved" (Json.bool true)
  have hR0s : dget (readR0 f) "success" = dget f "success" :=
    dget_dinsert_of_ne f "retrieved" "success" (Json.bool true) (by decide)
  unfold readR1
  by_cases c1 : dcontains (readR0 f) "result_error" = true
  · rw [if_pos c1]
    refine ⟨?_, ?_, ?_, ?_, fun _ => dcontains_dinsert_self _ _ _⟩
    · rw [dget_dinsert_of_ne _ _ _ _
        (by decide : ("task_error" : String) ≠ "result_error"), dget_derase_self]
    · rw [dget_dinsert_of_ne _ _ _ _
          (by decide : ("task_error" : String) ≠ "error"),
        dget_derase_of_ne _ _ _
          (by decide : ("result_error" : String) ≠ "error"), hR0e]
    · rw [dget_dinsert_of_ne _ _ _ _
          (by decide : ("task_error" : String) ≠ "retrieved"),
        dget_derase_of_ne _ _ _
          (by decide : ("result_error" : String) ≠ "retrieved"), hR0r]
    · rw [dget_dinsert_of_ne _ _ _ _
          (by decide : ("task_error" : String) ≠ "success"),
        dget_derase_of_ne _ _ _
          (by decide : ("result_error" : String) ≠ "success"), hR0s]
  · rw [if_neg c1]
    rw [Bool.not_eq_true] at c1
    refine ⟨dget_eq_none_of_dcontains_false c1, hR0e, hR0r, hR0s, ?_⟩
    intro hcf
    exfalso
    rw [dcontains_of_dget_eq hR0re, hcf] at c1
    exact absurd c1 (by simp)

theorem readR2_facts (f : List (String × Json)) :
    dget (readR2 f) "result_error" = none ∧
    dget (readR2 f) "error" = none ∧
    dget (readR2 f) "retrieved" = some (Json.bool true) ∧
    dget (readR2 f) "success" = dget f "success" ∧
    ((dcontains f "result_error" || dcontains f "error") = true →
      dcontains (readR2 f) "task_error" = true) := by
  obtain ⟨h1re, h1e, h1r, h1s, h1t⟩ := readR1_facts f
  unfold readR2
  by_cases c2 : dcontains (readR1 f) "error" = true
  · rw [if_pos c2]
    refine ⟨?_, ?_, ?_, ?_, fun _ => dcontains_dinsert_self _ _ _⟩
    · rw [dget_dinsert_of_ne _ _ _ _
          (by decide : ("task_error" : String) ≠ "result_error"),
        dget_derase_of_ne _ _ _
          (by decide : ("error" : String) ≠ "result_error"), h1re]
    · rw [dget_dinsert_of_ne _ _ _ _
        (by decide : ("task_error" : String) ≠ "error"), dget_derase_self]
    · rw [dget_dinsert_of_ne _ _ _ _
          (by decide : ("task_error" : String) ≠ "retrieved"),
        dget_derase_of_ne _ _ _
          (by decide : ("error" : String) ≠ "retrieved"), h1r]
    · rw [dget_dinsert_of_ne _ _ _ _
          (by decide : ("task_error" : String) ≠ "success"),
        dget_derase_of_ne _ _ _
          (by decide : ("error" : String) ≠ "success"), h1s]
  · rw [if_neg c2]
    rw [Bool.not_eq_true] at c2
    have herr : dget (readR1 f) "error" = none :=
      dget_eq_none_of_dcontains_false c2
    refine ⟨h1re, herr, h1r, h1s, ?_⟩
    intro hcf
    have hfe : dcontains f "error" = false := by
      rw [← dcontains_of_dget_eq h1e]
      exact c2
    rw [hfe, Bool.or_false] at hcf
    exact h1t hcf

theorem renameResultFields_facts (f : List (String × Json)) :
    dget (renameResultFields f) "result_error" = none ∧
    dget (renameResultFields f) "error" = none ∧
    dget (renameResultFields f) "retrieved" = some (Json.bool true) ∧
    ((dcontains f "result_error" || dcontains f "error") = true →
      dcontains (renameResultFields f) "task_error" = true) ∧
    (∃ v, dget (renameResultFields f) "success" = some v) ∧
    (dcontains f "success" = false →
      dget (renameResultFields f) "success" =
        some (Json.bool (!dcontains (renameResultFields f) "task_error"))) := by
  obtain ⟨h2re, h2e, h2r, h2s, h2t⟩ := readR2_facts f
  unfold renameResultFields
  by_cases c3 : dcontains (readR2 f) "success" = true
  · rw [if_pos c3]
    refine ⟨h2re, h2e, h2r, h2t, ?_, ?_⟩
    · unfold dcontains at c3
      cases hg : dget (readR2 f) "success" with
      | none => rw [hg] at c3; simp at c3
      | some v => exact ⟨v, rfl⟩
    · intro hf
      exfalso
      rw [dcontains_of_dget_eq h2s, hf] at c3
      exact absurd c3 (by simp)
  · rw [if_neg c3]
    have hTre : ("success" : String) ≠ "result_error" := by decide
    have hTe : ("success" : String) ≠ "error" := by decide
    have hTr : ("success" : String) ≠ "retrieved" := by decide
    have hTt : ("success" : String) ≠ "task_error" := by decide
    have htpres :
        dcontains (dinsert (readR2 f) "success"
            (Json.bool (!dcontains (readR2 f) "task_error"))) "task_error" =
          dcontains (readR2 f) "task_error" :=
      dcontains_of_dget_eq (dget_dinsert_of_ne _ _ _ _ hTt)
    refine ⟨?_, ?_, ?_, ?_, ?_, ?_⟩
    · rw [dget_dinsert_of_ne _ _ _ _ hTre, h2re]
    · rw [dget_dinsert_of_ne _ _ _ _ hTe, h2e]
    · rw [dget_dinsert_of_ne _ _ _ _ hTr, h2r]
    · intro hcf
      rw [htpres]
      exact h2t hcf
    · exact ⟨_, dget_dinsert_self _ _ _⟩
    · intro _
      rw [dget_dinsert_self, htpres]

/-- Claim C10 counterexample: the record {} is stored under id "job1", yet
the read_result task reports it as not found — the returned object carries
retrieved false and not_found true, because an empty (falsy) stored dict
takes the not-found branch. -/
theorem read_result_empty_record_counterexample :
    load_result "/res" (save_result "/res" [] "job1" (Json.obj [])).1 "job1" =
      some (Json.obj []) ∧
    task_read_result "/res" (save_result "/res" [] "job1" (Json.obj [])).1
        "job1" = some not_found_envelope ∧
    dget not_found_envelope "retrieved" = some (Json.bool false) ∧
    dget not_found_envelope "not_found" = some (Json.bool true) :=
  ⟨rfl, rfl, rfl, rfl⟩

/-- Claim C10, amended: for every stored record that is a non-empty dict,
the object returned by the read_result task contains neither "result_error"
nor "error"; when either key was present in the stored record a "task_error"
key is present in the returned object; a "retrieved": true field is added; a
"success" field is always present, and when the stored record carried no
"success" of its own it is set to false exactly when "task_error" is
present. An empty stored dict is instead reported as not found. -/
theorem read_result_renames_error_keys (root : String) (st : Store)
    (rid : String) (fields : List (String × Json))
    (hid : rid ≠ "")
    (hload : load_result root st rid = some (Json.obj fields))
    (hne : fields ≠ []) :
    task_read_result root st rid = some (renameResultFields fields) ∧
    dget (renameResultFields fields) "result_error" = none ∧
    dget (renameResultFields fields) "error" = none ∧
    dget (renameResultFields fields) "retrieved" = some (Json.bool true) ∧
    ((dcontains fields "result_error" || dcontains fields "error") = true →
      dcontains (renameResultFields fields) "task_error" = true) ∧
    (∃ v, dget (renameResultFields fields) "success" = some v) ∧
    (dcontains fields "success" = false →
      dget (renameResultFields fields) "success" =
        some (Json.bool (!dcontains (renameResultFields fields) "task_error"))) := by
  obtain ⟨p1, p2, p3, p4, p5, p6⟩ := renameResultFields_facts fields
  refine ⟨?_, p1, p2, p3, p4, p5, p6⟩
  unfold task_read_result
  rw [if_neg hid, hload]
  simp [pyTruthy, hne]

theorem precedesIn_cons_cons {a b : Event} {rest : List Event}
    {p q : Event → Bool} (hqa : q a = false) (hpb : p b = false)
    (hrest : ∀ e ∈ rest, p e = false ∧ q e = false) :
    precedesIn (a :: b :: rest) p q := by
  rintro i j ⟨e1, he1, hp1⟩ ⟨e2, he2, hq2⟩
  have hi0 : i = 0 := by
    cases i with
    | zero => rfl
    | succ n =>
      exfalso
      rw [List.get?_cons_succ] at he1
      cases n with
      | zero =>
        rw [List.get?_cons_zero] at he1
        injection he1 with h
        subst h
        rw [hpb] at hp1
        exact absurd hp1 (by simp)
      | succ m =>
        rw [List.get?_cons_succ] at he1
        have hm : e1 ∈ rest := List.get?_mem he1
        rw [(hrest e1 hm).1] at hp1
        exact absurd hp1 (by simp)
  subst hi0
  have hj0 : j ≠ 0 := by
    intro h0
    subst h0
    rw [List.get?_cons_zero] at he2
    injection he2 with h
    subst h
    rw [hqa] at hq2
    exact absurd hq2 (by simp)
  exact Nat.pos_of_ne_zero hj0

theorem precedesIn_one_two {a b : Event} {rest : List Event}
    {p q : Event → Bool} (hpa : p a = false) (hqa : q a = false)
    (hqb : q b = false) (hrest : ∀ e ∈ rest, p e = false) :
    precedesIn (a :: b :: rest) p q := by
  rintro i j ⟨e1, he1, hp1⟩ ⟨e2, he2, hq2⟩
  have hi1 : i = 1 := by
    cases i with
    | zero =>
      rw [List.get?_cons_zero] at he1
      injection he1 with h
      subst h
      rw [hpa] at hp1
      exact absurd hp1 (by simp)
    | succ n =>
      cases n with
      | zero => rfl
      | succ m =>
        exfalso
        rw [List.get?_cons_succ, List.get?_cons_succ] at he1
        have hm : e1 ∈ rest := List.get?_mem he1
        rw [hrest e1 hm] at hp1
        exact absurd hp1 (by simp)
  subst hi1
  cases j with
  | zero =>
    rw [List.get?_cons_zero] at he2
    injection he2 with h
    subst h
    rw [hqa] at hq2
    exact absurd hq2 (by simp)
  | succ n =>
    cases n with
    | zero =>
      rw [List.get?_cons_succ, List.get?_cons_zero] at he2
      injection he2 with h
      subst h
      rw [hqb] at hq2
      exact absurd hq2 (by simp)
    | succ m => omega

theorem videoLineLoop_store_shape (pid : Option String)
    (lines : List (ℚ × String)) :
    ∀ last e, e ∈ videoLineLoop pid lines last →
      ∃ id t, e = Event.store id "downloading" t := by
  induction lines with
  | nil =>
    intro last e he
    simp [videoLineLoop] at he
  | cons hd tl ih =>
    intro last e he
    obtain ⟨t, line⟩ := hd
    simp only [videoLineLoop] at he
    split at he
    · exact ih last e he
    · split at he
      · exact ih last e he
      · split at he
        · split at he
          · split at he
            · rcases List.mem_cons.mp he with h | h
              · exact ⟨_, _, h⟩
              · exact ih t e h
            · exact ih last e he
          · exact ih last e he
        · split at he
          · split at he
            · split at he
              · rcases List.mem_cons.mp he with h | h
                · exact ⟨_, _, h⟩
                · exact ih t e h
              · exact ih last e he
            · exact ih last e he
          · exact ih last e he

theorem videoTerminalEvents_store_shape (pid : Option String) (run : VideoRun)
    (paths : List String) :
    ∀ e ∈ videoTerminalEvents pid run paths,
      ∃ id s t, e = Event.store id s t ∧ (s = "complete" ∨ s = "error") := by
  intro e he
  unfold videoTerminalEvents at he
  split at he
  · simp at he
  · split at he
    · split at he
      · split at he
        · rw [List.mem_singleton] at he
          exact ⟨_, _, _, he, Or.inl rfl⟩
        · split at he
          · rw [List.mem_singleton] at he
            exact ⟨_, _, _, he, Or.inl rfl⟩
          · rw [List.mem_singleton] at he
            exact ⟨_, _, _, he, Or.inr rfl⟩
      · split at he
        · rw [List.mem_singleton] at he
          exact ⟨_, _, _, he, Or.inl rfl⟩
        · rw [List.mem_singleton] at he
          exact ⟨_, _, _, he, Or.inr rfl⟩
    · rw [List.mem_singleton] at he
      exact ⟨_, _, _, he, Or.inr rfl⟩

theorem directChunkLoop_shape (pid : Option String) (total : ℕ)
    (chunks : List (ℚ × ℕ)) :
    ∀ last e, e ∈ directChunkLoop pid total chunks last →
      (∃ n, e = Event.chunkWrite n) ∨
      ∃ id t, e = Event.store id "downloading" t := by
  induction chunks with
  | nil =>
    intro last e he
    simp [directChunkLoop] at he
  | cons hd tl ih =>
    intro last e he
    obtain ⟨t, n⟩ := hd
    simp only [directChunkLoop] at he
    split at he
    · exact ih last e he
    · rcases List.mem_cons.mp he with h | h
      · exact Or.inl ⟨_, h⟩
      · split at h
        · split at h
          · rcases List.mem_cons.mp h with h2 | h2
            · exact Or.inr ⟨_, _, h2⟩
            · exact ih t e h2
          · exact ih last e h
        · exact ih last e h

theorem videoLineLoop_sep (pid : Option String) (lines : List (ℚ × String)) :
    ∀ last, SepFrom progress_update_interval last
      (storeTimes (videoLineLoop pid lines last)) := by
  induction lines with
  | nil =>
    intro last
    simp [videoLineLoop, storeTimes, SepFrom]
  | cons hd tl ih =>
    intro last
    obtain ⟨t, line⟩ := hd
    simp only [videoLineLoop]
    split
    · exact ih last
    · split
      · exact ih last
      · split
        · split
          · split
            · rename_i hcond
              simp only [storeTimes, List.filterMap_cons]
              exact ⟨hcond, ih t⟩
            · exact ih last
          · exact ih last
        · split
          · split
            · split
              · rename_i hcond
                simp only [storeTimes, List.filterMap_cons]
                exact ⟨hcond, ih t⟩
              · exact ih last
            · exact ih last
          · exact ih last

theorem directChunkLoop_sep (pid : Option String) (total : ℕ)
    (chunks : List (ℚ × ℕ)) :
    ∀ last, SepFrom progress_update_interval last
      (storeTimes (directChunkLoop pid total chunks last)) := by
  induction chunks with
  | nil =>
    intro last
    simp [directChunkLoop, storeTimes, SepFrom]
  | cons hd tl ih =>
    intro last
    obtain ⟨t, n⟩ := hd
    simp only [directChunkLoop]
    split
    · exact ih last
    · simp only [storeTimes, List.filterMap_cons]
      split
      · split
        · rename_i hcond
          simp only [List.filterMap_cons]
          exact ⟨hcond.2, ih t⟩
        · exact ih last
      · exact ih last

theorem videoLineLoop_times_sub (pid : Option String)
    (lines : List (ℚ × String)) :
    ∀ last x, x ∈ storeTimes (videoLineLoop pid lines last) →
      x ∈ lines.map Prod.fst := by
  induction lines with
  | nil =>
    intro last x hx
    simp [videoLineLoop, storeTimes] at hx
  | cons hd tl ih =>
    intro last x hx
    obtain ⟨t, line⟩ := hd
    simp only [videoLineLoop] at hx
    simp only [List.map_cons]
    split at hx
    · exact List.mem_cons_of_mem _ (ih last x hx)
    · split at hx
      · exact List.mem_cons_of_mem _ (ih last x hx)
      · split at hx
        · split at hx
          · split at hx
            · simp only [storeTimes, List.filterMap_cons] at hx
              rcases List.mem_cons.mp hx with h | h
              · subst h
                exact List.mem_cons_self _ _
              · exact List.mem_cons_of_mem _ (ih t x h)
            · exact List.mem_cons_of_mem _ (ih last x hx)
          · exact List.mem_cons_of_mem _ (ih last x hx)
        · split at hx
          · split at hx
            · split at hx
              · simp only [storeTimes, List.filterMap_cons] at hx
                rcases List.mem_cons.mp hx with h | h
                · subst h
                  exact List.mem_cons_self _ _
                · exact List.mem_cons_of_mem _ (ih t x h)
              · exact List.mem_cons_of_mem _ (ih last x hx)
            · exact List.mem_cons_of_mem _ (ih last x hx)
          · exact List.mem_cons_of_mem _ (ih last x hx)

theorem sep_len_le_one {iv last t1 t2 : ℚ} {ts : List ℚ}
    (hiv : 0 < iv) (hsep : SepFrom iv last ts)
    (hsub : ∀ x ∈ ts, x = t1 ∨ x = t2)
    (h12 : t2 - t1 < iv) (h21 : t1 - t2 < iv) : ts.length ≤ 1 := by
  match ts, hsep with
  | [], _ => simp
  | [t], _ => simp
  | a :: b :: rest, ⟨h1, h2, _⟩ =>
    exfalso
    rcases hsub a (by simp) with ha | ha <;>
      rcases hsub b (by simp) with hb | hb <;> subst ha <;> subst hb <;> linarith

/-- Claim C3 counterexample: in the direct fetcher with a progress_id, the
HTTP GET is issued before the initial "starting" progress record is written
(the record needs the content-length from the response headers), so the
starting record does not precede the network I/O of the download. -/
theorem direct_starting_after_get_counterexample :
    downloadDirectFileEvents "https://h/x.mp4" (some "p1") (some ⟨1000, []⟩) 7 =
      [Event.httpGet "https://h/x.mp4",
       Event.store "progress-p1" "starting" 7] ∧
    ¬ precedesIn
        [Event.httpGet "https://h/x.mp4",
         Event.store "progress-p1" "starting" 7] isStartStore isHttpGet := by
  refine ⟨rfl, ?_⟩
  intro hpre
  have hlt := hpre 1 0
    ⟨Event.store "progress-p1" "starting" 7, rfl, rfl⟩
    ⟨Event.httpGet "https://h/x.mp4", rfl, rfl⟩
  omega

/-- Claim C3, amended: with a progress_id, the extraction downloader writes
the initial "starting" record before the subprocess is spawned; the direct
fetcher issues the HTTP GET first and writes the "starting" record after it
but before any body chunk is written to disk. -/
theorem progress_starting_order (p url : String) (resp : HttpOk)
    (tS tSv : ℚ) (run : VideoRun) :
    precedesIn (downloadVideoEvents (some p) tSv run) isStartStore isSpawn ∧
    precedesIn (downloadDirectFileEvents url (some p) (some resp) tS)
      isHttpGet isStartStore ∧
    precedesIn (downloadDirectFileEvents url (some p) (some resp) tS)
      isStartStore isChunkWrite := by
  have hloopShape : ∀ e ∈ directChunkLoop (some p) resp.contentLength resp.chunks 0,
      isStartStore e = false ∧ isHttpGet e = false ∧ isChunkWrite e = true ∨
      isStartStore e = false ∧ isHttpGet e = false ∧ isChunkWrite e = false := by
    intro e he
    rcases directChunkLoop_shape (some p) resp.contentLength resp.chunks 0 e he
      with ⟨n, rfl⟩ | ⟨id, t, rfl⟩
    · exact Or.inl ⟨rfl, rfl, rfl⟩
    · exact Or.inr ⟨rfl, rfl, rfl⟩
  refine ⟨?_, ?_, ?_⟩
  · have hshape : ∀ e ∈ videoLineLoop (some p) run.lines 0 ++
        videoTerminalEvents (some p) run (capturedPaths run.lines),
        isStartStore e = false ∧ isSpawn e = false := by
      intro e he
      rcases List.mem_append.mp he with h | h
      · obtain ⟨id, t, rfl⟩ := videoLineLoop_store_shape (some p) run.lines 0 e h
        exact ⟨rfl, rfl⟩
      · obtain ⟨id, s, t, rfl, hs⟩ :=
          videoTerminalEvents_store_shape (some p) run (capturedPaths run.lines) e h
        rcases hs with rfl | rfl
        · exact ⟨rfl, rfl⟩
        · exact ⟨rfl, rfl⟩
    show precedesIn (Event.store ("progress-" ++ p) "starting" tSv ::
      Event.spawn :: (videoLineLoop (some p) run.lines 0 ++
        videoTerminalEvents (some p) run (capturedPaths run.lines)))
      isStartStore isSpawn
    exact precedesIn_cons_cons rfl rfl hshape
  · have hshape : ∀ e ∈ directChunkLoop (some p) resp.contentLength resp.chunks 0,
        isHttpGet e = false ∧ isStartStore e = false := by
      intro e he
      rcases hloopShape e he with ⟨h1, h2, _⟩ | ⟨h1, h2, _⟩ <;> exact ⟨h2, h1⟩
    show precedesIn (Event.httpGet url ::
      Event.store ("progress-" ++ p) "starting" tS ::
        directChunkLoop (some p) resp.contentLength resp.chunks 0)
      isHttpGet isStartStore
    exact precedesIn_cons_cons rfl rfl hshape
  · have hshape : ∀ e ∈ directChunkLoop (some p) resp.contentLength resp.chunks 0,
        isStartStore e = false := by
      intro e he
      rcases hloopShape e he with ⟨h1, _, _⟩ | ⟨h1, _, _⟩ <;> exact h1
    show precedesIn (Event.httpGet url ::
      Event.store ("progress-" ++ p) "starting" tS ::
        directChunkLoop (some p) resp.contentLength resp.chunks 0)
      isStartStore isChunkWrite
    exact precedesIn_one_two rfl rfl rfl hshape

unseal Rat.add Rat.mul Rat.inv Rat.sub in
/-- Claim C4 counterexample: in one download_video invocation with a
progress_id, the initial "starting" record at time 100 and the first
throttled "downloading" record at time 100.1 are both written — two
progress-record writes less than 0.5 s apart, because the initial (and
terminal) writes bypass the throttle. -/
theorem video_unthrottled_writes_counterexample :
    downloadVideoEvents (some "p9") 100
        { lines := [(100 + 1/10,
            "[download]  50.0% of 100.00MiB at 5.00MiB/s ETA 00:10")],
          exitOk := false, pathOk := false, dirFallback := none, tEnd := 102 } =
      [Event.store "progress-p9" "starting" 100, Event.spawn,
       Event.store "progress-p9" "downloading" (100 + 1/10),
       Event.store "progress-p9" "error" 102] ∧
    (100 + 1/10 : ℚ) - 100 < progress_update_interval := by
  constructor
  · decide
  · norm_num [progress_update_interval]

/-- Claim C4, amended: the throttle governs the in-loop progress writes of
both downloaders — within one invocation, two parser-derived updates 0.1 s
apart cause at most one result-store write, and successive in-loop writes
are always at least 0.5 s apart (in both the subprocess-output loop and the
direct-fetch chunk loop); the initial "starting" record and the terminal
record are written outside the throttle. -/
theorem progress_write_throttled (pid : Option String)
    (lines : List (ℚ × String)) (last t : ℚ) (l1 l2 : String) (total : ℕ)
    (chunks : List (ℚ × ℕ)) :
    (storeTimes (videoLineLoop pid [(t, l1), (t + 1/10, l2)] last)).length ≤ 1 ∧
    SepFrom progress_update_interval last
      (storeTimes (videoLineLoop pid lines last)) ∧
    SepFrom progress_update_interval last
      (storeTimes (directChunkLoop pid total chunks last)) := by
  refine ⟨?_, videoLineLoop_sep pid lines last,
    directChunkLoop_sep pid total chunks last⟩
  have hsub : ∀ x ∈ storeTimes (videoLineLoop pid [(t, l1), (t + 1/10, l2)] last),
      x = t ∨ x = t + 1/10 := by
    intro x hx
    have hm := videoLineLoop_times_sub pid [(t, l1), (t + 1/10, l2)] last x hx
    simpa using hm
  refine sep_len_le_one ?_ (videoLineLoop_sep pid [(t, l1), (t + 1/10, l2)] last)
    hsub ?_ ?_
  · norm_num [progress_update_interval]
  · rw [progress_update_interval]
    linarith
  · rw [progress_update_interval]
    linarith

theorem read_result_renames_error_keys_witness :
    task_read_result "/res"
        (save_result "/res" [] "job2"
          (Json.obj [("result_error", Json.str "boom")])).1 "job2" =
      some (renameResultFields [("result_error", Json.str "boom")]) ∧
    dget (renameResultFields [("result_error", Json.str "boom")])
        "result_error" = none ∧
    dget (renameResultFields [("result_error", Json.str "boom")]) "error" =
      none ∧
    dget (renameResultFields [("result_error", Json.str "boom")]) "retrieved" =
      some (Json.bool true) ∧
    ((dcontains [("result_error", Json.str "boom")] "result_error" ||
        dcontains [("result_error", Json.str "boom")] "error") = true →
      dcontains (renameResultFields [("result_error", Json.str "boom")])
        "task_error" = true) ∧
    (∃ v, dget (renameResultFields [("result_error", Json.str "boom")])
        "success" = some v) ∧
    (dcontains [("result_error", Json.str "boom")] "success" = false →
      dget (renameResultFields [("result_error", Json.str "boom")]) "success" =
        some (Json.bool (!dcontains
          (renameResultFields [("result_error", Json.str "boom")])
          "task_error"))) :=
  read_result_renames_error_keys "/res"
    (save_result "/res" [] "job2"
      (Json.obj [("result_error", Json.str "boom")])).1 "job2"
    [("result_error", Json.str "boom")] (by decide) rfl (by simp)

end StashDownloader
